import Mathlib

/-!
# Verification of the Spanner gorm dialect's schema reconciliation engine

This file gives a shallow embedding, in Lean, of the schema-reconciliation
(migration) engine of the `go-gorm-spanner` repository, and proves or refutes
the specification claims about it.

The embedding follows the Go source:
* `postgresql/migrator.go` — the custom migrator (`autoMigrate`, `HasTable`,
  `ColumnTypes`, `MigrateColumn`, `AlterColumn`, `isColumnGenerated`,
  `DropTable`, `parseDefaultValueValue`, batch control).
* `postgresql/spanner.go` — the dialect (`DataTypeOf`, `getSerialDatabaseType`,
  `BeforeUpdate`, `Initialize`).
* The repository's tests pin the exact DDL text rendered by the engine; those
  statement lists are embedded verbatim where a claim is about rendered text.

Parts of the pipeline that live outside the repository's sources (the gorm
planner core and its `ReorderModels` topological orderer, and the GoogleSQL
dialect's unique-constraint rejection) are modelled from the specification;
each such definition carries a doc comment starting `Modelled from the spec:`.
-/

namespace SpannerGorm

/-! ## Catalog introspection (`ColumnTypes` uniqueness attribution)

`ColumnTypes` in `postgresql/migrator.go` attributes PRIMARY KEY / UNIQUE
facts to columns by querying `information_schema.table_constraints` joined
with `constraint_column_usage` and `columns`.  The decisive property is the
`WHERE` scoping: `c.table_schema = ? AND c.table_name = ?` (and the join on
`table_name`), plus the exclusion of the synthetic
`spanner_gorm_generated_id` column.  We model the joined query result as a
list of rows. -/

/-- One row of the joined constraint query in `ColumnTypes`
(`postgresql/migrator.go`, the two queries at lines 423 and 442): a column of
a table that participates in a PRIMARY KEY or UNIQUE constraint. -/
structure ConstraintRow where
  tableSchema : String
  tableName : String
  columnName : String
  constraintName : String
  constraintType : String
  deriving DecidableEq

/-- The rows of the catalog that belong to one table: the `WHERE
c.table_schema = ? AND c.table_name = ?` scoping shared by both constraint
queries in `ColumnTypes`. -/
def tableRows (cat : List ConstraintRow) (sch tbl : String) : List ConstraintRow :=
  cat.filter (fun r => r.tableSchema == sch && r.tableName == tbl)

/-- The table's constraint rows after the source's
`and not c.column_name='spanner_gorm_generated_id'` filter. -/
def tableConstraintRows (cat : List ConstraintRow) (sch tbl : String) : List ConstraintRow :=
  (tableRows cat sch tbl).filter (fun r => r.columnName != "spanner_gorm_generated_id")

/-- The first query of the `check primary, unique field` block: the number of
rows of a given UNIQUE constraint (the map `uniqueContraints` in the source,
which counts rows per constraint name). -/
def uniqueConstraintCount (cat : List ConstraintRow) (sch tbl cn : String) : Nat :=
  ((tableConstraintRows cat sch tbl).filter
    (fun r => r.constraintType == "UNIQUE" && r.constraintName == cn)).length

/-- Attribution of the `UniqueValue` flag in `ColumnTypes`: a column is
reported unique iff some UNIQUE row of this table names it and that
constraint covers exactly one column (`uniqueContraints[constraintName] == 1`
in the source). -/
def columnIsUnique (cat : List ConstraintRow) (sch tbl col : String) : Bool :=
  (tableConstraintRows cat sch tbl).any
    (fun r => r.columnName == col && r.constraintType == "UNIQUE" &&
      uniqueConstraintCount cat sch tbl r.constraintName == 1)

/-- Attribution of the `PrimaryKeyValue` flag in `ColumnTypes`: set iff some
PRIMARY KEY row of this table names the column. -/
def columnIsPrimaryKey (cat : List ConstraintRow) (sch tbl col : String) : Bool :=
  (tableConstraintRows cat sch tbl).any
    (fun r => r.columnName == col && r.constraintType == "PRIMARY KEY")

/-! ## `HasTable` / `GetTables` error behaviour -/

/-- Result of a catalog query: either rows/a value, or a query error. -/
inductive QueryResult (α : Type) where
  | ok (a : α)
  | err (e : String)
  deriving DecidableEq

/-- `HasTable` from `postgresql/migrator.go` (lines 158–167): runs a `count(*)`
query over `information_schema.tables`; on a query error it returns `false`,
otherwise it returns `count > 0`. -/
def hasTable (q : QueryResult Nat) : Bool :=
  match q with
  | .err _ => false
  | .ok count => count > 0

/-- `GetTables` from `postgresql/migrator.go` (lines 153–156): returns the
scanned list, propagating a query error verbatim. -/
def getTables (q : QueryResult (List String)) : Except String (List String) :=
  match q with
  | .err e => .error e
  | .ok l => .ok l

/-! ## The `BeforeUpdate` callback (`postgresql/spanner.go`, lines 163–171)

The callback reads `db.Statement.Schema.PrimaryFieldDBNames` (a nil-able Go
slice) and, when present, replaces the statement's omit list with the old
omit list followed by every primary-key column name. -/

/-- The part of a gorm statement's schema the callback uses: the nil-able
slice of primary-key column names. -/
structure UpdateSchema where
  primaryFieldDBNames : Option (List String)
  deriving DecidableEq

/-- The part of a gorm statement the callback reads and writes. -/
structure UpdateStmt where
  schema : Option UpdateSchema
  omits : List String
  deriving DecidableEq

/-- `BeforeUpdate` from `postgresql/spanner.go`: when the statement has a
schema with a non-nil `PrimaryFieldDBNames`, append those names to the omit
list (`omits ++ primary names`, then `Statement.Omit(omits...)`). -/
def beforeUpdate (st : UpdateStmt) : UpdateStmt :=
  match st.schema with
  | some sch =>
    match sch.primaryFieldDBNames with
    | some pks => { st with omits := st.omits ++ pks }
    | none => st
  | none => st

/-- Modelled from the spec: gorm builds the SET clause of an UPDATE from the
schema's writable fields, skipping every column whose name is in the
statement's omit list.  (The clause builder itself is gorm-core code outside
this repository.) -/
def updateSetColumns (fields : List String) (st : UpdateStmt) : List String :=
  fields.filter (fun f => !st.omits.contains f)

/-! ## Type & constraint mapping (`DataTypeOf`, alias resolution)

`DataTypeOf` in `postgresql/spanner.go` (lines 252–270) maps a gorm logical
data type to the rendered physical type.  `AlterColumn` in
`postgresql/migrator.go` (lines 549–562) decides type drift by a
case-insensitive comparison of the live catalog type name against the
rendered type, falling back to `strings.HasPrefix` over the live type's
aliases. -/

/-- The gorm logical data types that occur in this engine's models. -/
inductive GormDataType where
  | int | uint | float | time | bool | string | date | jsonb | bytes
  deriving DecidableEq

/-- A column of the desired schema, as gorm's schema parser hands it to the
migrator: name, logical type, flags, default, optional generation
expression, and whether a genuine UNIQUE column constraint was requested. -/
structure DesiredColumn where
  name : String
  dataType : GormDataType
  autoIncrement : Bool
  notNull : Bool
  primaryKey : Bool
  hasDefault : Bool
  defaultValue : String
  genExpr : Option String
  unique : Bool
  deriving DecidableEq

/-- Modelled from the spec: the base PostgreSQL dialect's type mapping (the
`postgres.Dialector.DataTypeOf` fallback in `DataTypeOf`, which is
gorm-driver code outside this repository).  The concrete strings are pinned
by the DDL text the repository's tests expect (`"active" boolean`,
`"first_name" text`, `"release_date" date`, `"description" jsonb`,
`"cover_picture" bytea`). -/
def postgresBaseDataType : GormDataType → String
  | .bool => "boolean"
  | .string => "text"
  | .date => "date"
  | .jsonb => "jsonb"
  | .bytes => "bytea"
  | .int => "int"
  | .uint => "int"
  | .float => "numeric"
  | .time => "timestamptz"

/-- `DataTypeOf` from `postgresql/spanner.go` as a function of the two
inputs the switch reads: Int/Uint map to `serial` when auto-increment and
`int` otherwise; Float to `numeric`; Time to `timestamptz`; everything else
to `serial` when auto-increment, falling back to the base dialect's mapping
otherwise. -/
def dataTypeOfRaw (dt : GormDataType) (autoIncrement : Bool) : String :=
  match dt with
  | .int => if autoIncrement then "serial" else "int"
  | .uint => if autoIncrement then "serial" else "int"
  | .float => "numeric"
  | .time => "timestamptz"
  | _ => if autoIncrement then "serial" else postgresBaseDataType dt

/-- `DataTypeOf` applied to a desired column. -/
def dataTypeOf (c : DesiredColumn) : String :=
  dataTypeOfRaw c.dataType c.autoIncrement

/-- Modelled from the spec: the physical catalog type name (`udt_name`, what
`ColumnTypes` reports as `DatabaseTypeName`) that the live schema shows for
a column created with the given rendered type.  Pinned by the integration
tests' catalog expectations (`id bigint`, `first_name character varying`,
`active boolean`). -/
def catalogTypeOf : String → String
  | "serial" => "int8"
  | "int" => "int8"
  | "text" => "varchar"
  | "boolean" => "bool"
  | t => t

/-- Modelled from the spec: the alias families of §4.2 (the
`GetTypeAliases` table of the base PostgreSQL driver, outside this
repository): each catalog type name maps to the rendered spellings that
denote the same physical type. -/
def typeAliases : String → List String
  | "int8" => ["bigint", "int", "serial"]
  | "varchar" => ["character varying", "text", "varchar"]
  | "bool" => ["boolean"]
  | "numeric" => ["decimal", "numeric"]
  | _ => []

/-- ASCII lower-casing of one character, the effect of Go's
`strings.EqualFold` on the identifiers this engine compares. -/
def asciiLower (c : Char) : Char :=
  if 'A' ≤ c && c ≤ 'Z' then Char.ofNat (c.toNat + 32) else c

/-- Go's `strings.EqualFold` restricted to ASCII identifiers. -/
def eqFold (s t : String) : Bool :=
  s.data.map asciiLower == t.data.map asciiLower

/-- The `isSameType` check of `AlterColumn` (`postgresql/migrator.go`, lines
550–562): case-insensitive equality of the live catalog type against the
rendered desired type, else `strings.HasPrefix` of the rendered type against
any alias of the live type. -/
def typesEquivalent (liveType desired : String) : Bool :=
  eqFold liveType desired ||
    (typeAliases liveType).any (fun a => a.data.isPrefixOf desired.data)

/-! ## Live schema and migration actions -/

/-- A live column as the catalog introspector reports it. -/
structure LiveColumn where
  name : String
  dataType : String
  nullable : Bool
  default : Option String
  generationExpression : Option String
  autoIncrement : Bool
  deriving DecidableEq

/-- A live index; `managerOwned` records whether this engine created it
(the `spanner_is_managed` / ownership distinction of §4.3). -/
structure LiveIndex where
  name : String
  unique : Bool
  managerOwned : Bool
  deriving DecidableEq

/-- A live table snapshot: columns, indexes, foreign-key constraint names,
and whether a backing sequence exists. -/
structure LiveTable where
  name : String
  columns : List LiveColumn
  indexes : List LiveIndex
  fks : List String
  hasSequence : Bool
  deriving DecidableEq

/-- A live schema: the tables the catalog reports (a finite map from table
name, represented as a list). -/
abbrev LiveSchema := List LiveTable

/-- A declared index of the desired schema. -/
structure DesiredIndex where
  name : String
  columns : List String
  unique : Bool
  deriving DecidableEq

/-- A foreign key declared by a (child) table of the desired schema. -/
structure ForeignKey where
  name : String
  parentTable : String
  deriving DecidableEq

/-- A table of the desired schema. -/
structure DesiredTable where
  name : String
  columns : List DesiredColumn
  indexes : List DesiredIndex
  foreignKeys : List ForeignKey
  deriving DecidableEq

/-- The migration actions of §3 (MigrationAction), each carrying the table
name and the name of the object it affects. -/
inductive MigrationAction where
  | createSequence (table : String)
  | dropSequence (table : String)
  | createTable (table : String)
  | dropTable (table : String)
  | addColumn (table col : String)
  | alterColumnType (table col : String)
  | alterColumnNullability (table col : String)
  | alterColumnDefault (table col : String)
  | createIndex (table idx : String)
  | dropIndex (table idx : String)
  | addForeignKey (table fk : String)
  | dropForeignKey (table fk : String)
  deriving DecidableEq

/-! ## The diff planner -/

/-- `isColumnGenerated` from `postgresql/migrator.go` (lines 668–684): a
catalog count of rows of this table/column with a non-null
`generation_expression`. -/
def isColumnGenerated (t : LiveTable) (col : String) : Bool :=
  ((t.columns.filter
    (fun c => c.name == col && c.generationExpression.isSome)).length) > 0

/-- The default-value expression a desired column ends up with: none for
generated columns and for the `(-)` marker, otherwise the declared default
when one is present (the default handling of `AlterColumn`, lines 602–626). -/
def desiredDefault (c : DesiredColumn) : Option String :=
  if c.genExpr.isSome then none
  else if c.hasDefault && c.defaultValue != "" && c.defaultValue != "(-)" then
    some c.defaultValue
  else none

/-- The per-column planning step: `MigrateColumn` (lines 517–526) skips
primary-key fields entirely; `AlterColumn` (lines 528–637) skips generated
columns entirely, then emits a type alteration when `isSameType` fails, a
nullability alteration when the live nullability equals the desired NOT NULL
flag (the `null == field.NotNull` test at line 590), and a default
alteration when the live default differs from the desired one. -/
def planColumn (t : LiveTable) (lc : LiveColumn) (c : DesiredColumn) :
    List MigrationAction :=
  if c.primaryKey then []
  else if isColumnGenerated t c.name then []
  else
    (if typesEquivalent lc.dataType (dataTypeOf c) then []
     else [.alterColumnType t.name c.name]) ++
    (if lc.nullable == c.notNull then [.alterColumnNullability t.name c.name]
     else []) ++
    (if lc.default == desiredDefault c then []
     else [.alterColumnDefault t.name c.name])

/-- Whether the table needs a backing sequence: some column is
auto-increment (§4.3's CreateSequence trigger). -/
def needsSequence (d : DesiredTable) : Bool :=
  d.columns.any (·.autoIncrement)

/-- Modelled from the spec: the actions for a desired table absent from the
live schema (§4.3): CreateSequence (if auto-increment present), then
CreateTable (which carries the foreign-key constraints, rendered here as
AddForeignKey actions directly after it), then CreateIndex for each declared
index, in that order. -/
def newTableActions (d : DesiredTable) : List MigrationAction :=
  (if needsSequence d then [.createSequence d.name] else []) ++
  [.createTable d.name] ++
  d.foreignKeys.map (fun fk => .addForeignKey d.name fk.name) ++
  d.indexes.map (fun i => .createIndex d.name i.name)

/-- Modelled from the spec: the actions for a desired table present in the
live schema (§4.3): sequence transitions, AddColumn for absent columns and
the per-column alteration logic (`planColumn`, embedded from the source) for
present ones, creation of desired indexes absent live, drop of manager-owned
live indexes absent from desired, and foreign keys added when absent and
dropped when no longer declared. -/
def existingTableActions (lt : LiveTable) (d : DesiredTable) :
    List MigrationAction :=
  (if needsSequence d && !lt.hasSequence then [.createSequence d.name] else []) ++
  (if !needsSequence d && lt.hasSequence then [.dropSequence d.name] else []) ++
  (d.columns.flatMap (fun c =>
    match lt.columns.find? (fun lc => lc.name == c.name) with
    | none => [.addColumn d.name c.name]
    | some lc => planColumn lt lc c)) ++
  ((d.indexes.filter
      (fun i => !(lt.indexes.any (fun li => li.name == i.name)))).map
    (fun i => .createIndex d.name i.name)) ++
  ((lt.indexes.filter
      (fun li => li.managerOwned && !(d.indexes.any (fun i => i.name == li.name)))).map
    (fun li => .dropIndex d.name li.name)) ++
  ((d.foreignKeys.filter (fun fk => !(lt.fks.contains fk.name))).map
    (fun fk => .addForeignKey d.name fk.name)) ++
  ((lt.fks.filter
      (fun n => !(d.foreignKeys.any (fun fk => fk.name == n)))).map
    (fun n => .dropForeignKey d.name n))

/-- The plan for one desired table against the live schema. -/
def planTable (live : LiveSchema) (d : DesiredTable) : List MigrationAction :=
  match live.find? (fun t => t.name == d.name) with
  | none => newTableActions d
  | some lt => existingTableActions lt d

/-- Modelled from the spec: `plan(live, desired) -> []MigrationAction`
(§4.3), the actions for every desired table in order. -/
def plan (live : LiveSchema) (ds : List DesiredTable) : List MigrationAction :=
  ds.flatMap (planTable live)

/-! ## Applying a migration -/

/-- The live column the catalog reports after the engine has migrated the
column to its desired shape. -/
def liveColumnOf (c : DesiredColumn) : LiveColumn :=
  { name := c.name
    dataType := catalogTypeOf (dataTypeOf c)
    nullable := !c.notNull
    default := desiredDefault c
    generationExpression := c.genExpr
    autoIncrement := c.autoIncrement }

/-- The live index for a migrated declared index (created, hence owned, by
this engine). -/
def liveIndexOf (i : DesiredIndex) : LiveIndex :=
  { name := i.name, unique := i.unique, managerOwned := true }

/-- The live table the catalog reports after the engine has migrated the
desired table. -/
def liveTableOf (d : DesiredTable) : LiveTable :=
  { name := d.name
    columns := d.columns.map liveColumnOf
    indexes := d.indexes.map liveIndexOf
    fks := d.foreignKeys.map (·.name)
    hasSequence := needsSequence d }

/-- Modelled from the spec: the live schema after executing the plan — every
migrated table now reports its desired shape, every other live table is
untouched. -/
def applyMigration (live : LiveSchema) (ds : List DesiredTable) : LiveSchema :=
  ds.map liveTableOf ++
    List.filter (fun t => !(ds.any (fun d => d.name == t.name))) live

/-- Modelled from the spec: the specific, stable error with which a request
for a genuine UNIQUE column constraint is rejected (the
`errUniqueConstraintNotSupported` of the GoogleSQL migrator, absent from the
available sources; the message is pinned by `TestMigrateUniqueFieldFails`). -/
def errUniqueConstraintNotSupported : String :=
  "<UNIQUE> constraint is not supported, create a unique index instead."

/-- Whether some desired column requests a genuine UNIQUE constraint. -/
def hasGenuineUniqueConstraint (ds : List DesiredTable) : Bool :=
  ds.any (fun d => d.columns.any (fun c => c.unique))

/-- Modelled from the spec: planning with the §4.2 rejection — a desired
schema containing a genuine UNIQUE column constraint fails fast with the
stable error, and otherwise planning succeeds. -/
def planChecked (live : LiveSchema) (ds : List DesiredTable) :
    Except String (List MigrationAction) :=
  if hasGenuineUniqueConstraint ds then .error errUniqueConstraintNotSupported
  else .ok (plan live ds)

/-! ## The batch executor (`autoMigrate`, `postgresql/migrator.go` lines 99–151)

`autoMigrate(dryRun, values...)`:
1. queries whether the `default_sequence_kind` database option is set;
2. when `dryRun || !disableAutoBatching`, executes `START BATCH DDL` and
   installs a deferred `ABORT BATCH` that runs on *every* exit (a no-op when
   no batch is active on the connection);
3. when the option is unset, executes the `alter database … set
   spanner.default_sequence_kind` statement (into the batch when one is open);
4. runs the gorm planner, whose DDL goes into the batch when one is open and
   executes statement-by-statement otherwise;
5. on success: with batching disabled and not dry-run, returns immediately;
   in dry-run, reads the batch's accumulated statements and returns them
   after an explicit `ABORT BATCH`; otherwise commits with `RUN BATCH`.

We model the reachable control-flow paths explicitly, with a `FailSpec`
choosing which fallible step fails, and record the batch statements
(`START`/`RUN`/`ABORT`) the function issues as a trace. -/

/-- A statement accumulated in (or executed outside) a DDL batch. -/
inductive DdlStmt where
  | alterDatabaseSetDefaultSequenceKind
  | ddl (a : MigrationAction)
  deriving DecidableEq

/-- The batch-control statements `autoMigrate` can issue. -/
inductive BatchEvent where
  | start
  | run
  | abort
  deriving DecidableEq

/-- The connection-level state `autoMigrate` observes and mutates: the live
schema, whether the `default_sequence_kind` option is set, and the batch
open on the connection (with its accumulated statements), if any. -/
structure DBState where
  live : LiveSchema
  defaultSequenceKindSet : Bool
  batch : Option (List DdlStmt)
  deriving DecidableEq

/-- Which fallible step of `autoMigrate` fails (all `false`: the healthy
run). -/
structure FailSpec where
  failOptionQuery : Bool
  failStartBatch : Bool
  failAlterDatabase : Bool
  failMigrate : Bool
  failGetStatements : Bool
  failRunBatch : Bool
  deriving DecidableEq

/-- The healthy run: no step fails. -/
def noFailures : FailSpec :=
  { failOptionQuery := false, failStartBatch := false,
    failAlterDatabase := false, failMigrate := false,
    failGetStatements := false, failRunBatch := false }

instance exceptDecEq {ε α : Type} [DecidableEq ε] [DecidableEq α] :
    DecidableEq (Except ε α)
  | .error a, .error b =>
    if h : a = b then .isTrue (by rw [h])
    else .isFalse (fun hc => h (by cases hc; rfl))
  | .error _, .ok _ => .isFalse (fun hc => Except.noConfusion hc)
  | .ok _, .error _ => .isFalse (fun hc => Except.noConfusion hc)
  | .ok a, .ok b =>
    if h : a = b then .isTrue (by rw [h])
    else .isFalse (fun hc => h (by cases hc; rfl))

/-- The outcome of one `autoMigrate` call: the returned value (the batched
statements in dry-run mode, nothing otherwise), the final connection state,
and the trace of batch-control statements issued. -/
structure AMResult where
  ret : Except String (Option (List DdlStmt))
  finalState : DBState
  trace : List BatchEvent
  deriving DecidableEq

/-- The DDL the gorm planner renders into the batch for this live schema and
desired tables. -/
def renderTableStmts (live : LiveSchema) (ds : List DesiredTable) :
    List DdlStmt :=
  (plan live ds).map .ddl

/-- The shallow embedding of `autoMigrate` (`postgresql/migrator.go` lines
99–151).  Each exit of the Go function is one branch; the deferred
`ABORT BATCH` of lines 110–114 appears as the final `.abort` event of every
branch on which the batch was started.  On the dry-run success path the
source first issues an explicit `ABORT BATCH` (line 145) and the deferred
one then runs as a no-op, hence two `.abort` events.  With batching
disabled (and not dry-run) the planner's statements execute one at a time;
a mid-run failure leaving a partially migrated schema is the documented
risk of that mode and is modelled here as an error return. -/
def autoMigrateModel (dryRun disableAutoBatching : Bool) (fails : FailSpec)
    (ds : List DesiredTable) (st : DBState) : AMResult :=
  if fails.failOptionQuery then
    { ret := .error "option query failed", finalState := st, trace := [] }
  else if dryRun || !disableAutoBatching then
    -- batching: START BATCH DDL, deferred ABORT BATCH on every later exit
    if fails.failStartBatch then
      { ret := .error "start batch failed", finalState := st, trace := [] }
    else if !st.defaultSequenceKindSet && fails.failAlterDatabase then
      { ret := .error "alter database failed",
        finalState := { st with batch := none }, trace := [.start, .abort] }
    else
      let batch1 : List DdlStmt :=
        if st.defaultSequenceKindSet then []
        else [.alterDatabaseSetDefaultSequenceKind]
      if fails.failMigrate then
        { ret := .error "migrate failed",
          finalState := { st with batch := none }, trace := [.start, .abort] }
      else if hasGenuineUniqueConstraint ds then
        { ret := .error errUniqueConstraintNotSupported,
          finalState := { st with batch := none }, trace := [.start, .abort] }
      else
        let batch2 := batch1 ++ renderTableStmts st.live ds
        if dryRun then
          if fails.failGetStatements then
            { ret := .error "get batched statements failed",
              finalState := { st with batch := none },
              trace := [.start, .abort] }
          else
            { ret := .ok (some batch2),
              finalState := { st with batch := none },
              trace := [.start, .abort, .abort] }
        else if fails.failRunBatch then
          { ret := .error "run batch failed",
            finalState := { st with batch := none },
            trace := [.start, .run, .abort] }
        else
          { ret := .ok none,
            finalState :=
              { live := applyMigration st.live ds,
                defaultSequenceKindSet := true, batch := none },
            trace := [.start, .run, .abort] }
  else
    -- batching disabled and not dry-run: no batch, direct execution
    if !st.defaultSequenceKindSet && fails.failAlterDatabase then
      { ret := .error "alter database failed", finalState := st, trace := [] }
    else
      let st1 := { st with defaultSequenceKindSet := true }
      if fails.failMigrate then
        { ret := .error "migrate failed", finalState := st1, trace := [] }
      else if hasGenuineUniqueConstraint ds then
        { ret := .error errUniqueConstraintNotSupported, finalState := st1,
          trace := [] }
      else
        { ret := .ok none,
          finalState := { st1 with live := applyMigration st.live ds },
          trace := [] }

/-- `AutoMigrateDryRun` (`postgresql/migrator.go` line 83): `autoMigrate`
with `dryRun = true`. -/
def autoMigrateDryRunModel (disableAutoBatching : Bool) (fails : FailSpec)
    (ds : List DesiredTable) (st : DBState) : AMResult :=
  autoMigrateModel true disableAutoBatching fails ds st

/-- `AutoMigrate` (`postgresql/migrator.go` line 87): `autoMigrate` with
`dryRun = false`. -/
def autoMigrateRunModel (disableAutoBatching : Bool) (fails : FailSpec)
    (ds : List DesiredTable) (st : DBState) : AMResult :=
  autoMigrateModel false disableAutoBatching fails ds st

/-! ## Dependency ordering (`ReorderModels`, `DropTable`)

gorm's `ReorderModels` (outside this repository) topologically sorts the
models by their foreign-key dependencies before table creation; `DropTable`
in `postgresql/migrator.go` (lines 211–225) calls it and then iterates the
result from the last element to the first. -/

/-- Whether a table's every foreign-key parent is no longer pending: each
parent either is the table itself (self-reference) or does not occur among
the remaining tables. -/
def readyTable (rem : List DesiredTable) (d : DesiredTable) : Bool :=
  d.foreignKeys.all (fun fk => fk.parentTable == d.name ||
    rem.all (fun p => p.name != fk.parentTable))

/-- Modelled from the spec: the rounds of the topological sort of §4.6 —
emit every table whose parents are all resolved, repeat on the rest.  When
no table is ready (a dependency cycle), the remainder is emitted as-is. -/
def topoRounds : Nat → List DesiredTable → List DesiredTable
  | 0, rem => rem
  | fuel + 1, rem =>
    let rd := rem.filter (readyTable rem)
    if rd.isEmpty then rem
    else rd ++ topoRounds fuel (rem.filter (fun d => !readyTable rem d))

/-- Modelled from the spec: gorm's `ReorderModels` — a topological order in
which a parent table always precedes its foreign-key-bearing children. -/
def reorderModels (ds : List DesiredTable) : List DesiredTable :=
  topoRounds ds.length ds

/-- Table `c` references table `p` via a foreign key (and they are distinct
tables). -/
def refsTable (c p : DesiredTable) : Prop :=
  p.name ≠ c.name ∧ ∃ fk ∈ c.foreignKeys, fk.parentTable = p.name

/-- The foreign-key graph of the schema is acyclic, witnessed by a ranking:
every referenced parent ranks strictly below its child. -/
def FkRanked (ds : List DesiredTable) (rank : String → Nat) : Prop :=
  ∀ c ∈ ds, ∀ p ∈ ds, refsTable c p → rank p.name < rank c.name

/-- The full creation plan: the tables in `ReorderModels` order, each
rendered by the planner against an empty live schema. -/
def createPlan (ds : List DesiredTable) : List MigrationAction :=
  plan [] (reorderModels ds)

/-- `DropTable` from `postgresql/migrator.go` (lines 211–225): reorder the
models, then drop each table iterating from the last index down to zero. -/
def dropTableActions (ds : List DesiredTable) : List MigrationAction :=
  ((reorderModels ds).reverse).map (fun d => .dropTable d.name)

/-! ## Rendered DDL text and naming conventions

The repository's tests pin the exact DDL text the engine renders.
`TestMigrate` (`postgresql/spanner.go`, lines 341–390) pins the five
PostgreSQL-dialect statements for the models `singer`, `album` (declaring a
`Singer` association) and `test` (declaring a `Singer` association);
`TestAutoMigrate_CreateDataModel` (`migrator_emulator_test.go`, lines
132–170) pins the GoogleSQL-dialect dry-run statements for `Singer` (with a
has-many `Albums` and `Concerts`), `Album` (has-many `Tracks`), `Track`,
`Venue` (has-many `Concerts`) and `Concert`.  We embed those statement
texts verbatim and analyse the identifier names occurring in them.  (The
GoogleSQL `CREATE TABLE singers` statement and the two `alter database`
statements contain quoted SQL string literals and are not needed for any
naming fact, so they are omitted.) -/

/-- The five statements the PostgreSQL dialect renders in `TestMigrate`
(`postgresql/spanner.go`, lines 371–389), verbatim. -/
def testMigrateStatements : List String :=
  ["CREATE TABLE \"singers\" (\"id\" serial,\"created_at\" timestamptz,\"updated_at\" timestamptz,\"deleted_at\" timestamptz,\"first_name\" text,\"last_name\" text,\"full_name\" text,\"active\" boolean,PRIMARY KEY (\"id\"))",
   "CREATE INDEX IF NOT EXISTS \"idx_singers_deleted_at\" ON \"singers\" (\"deleted_at\")",
   "CREATE TABLE \"albums\" (\"id\" serial,\"created_at\" timestamptz,\"updated_at\" timestamptz,\"deleted_at\" timestamptz,\"title\" text,\"rating\" numeric,\"singer_id\" int,PRIMARY KEY (\"id\"),CONSTRAINT \"fk_albums_singer\" FOREIGN KEY (\"singer_id\") REFERENCES \"singers\"(\"id\"))",
   "CREATE INDEX IF NOT EXISTS \"idx_albums_deleted_at\" ON \"albums\" (\"deleted_at\")",
   "CREATE TABLE \"tests\" (\"id\" serial,\"test\" text,\"singer_id\" int,PRIMARY KEY (\"id\"),CONSTRAINT \"fk_tests_singer\" FOREIGN KEY (\"singer_id\") REFERENCES \"singers\"(\"id\"))"]

/-- The GoogleSQL-dialect dry-run statements of
`TestAutoMigrate_CreateDataModel` (`migrator_emulator_test.go`, lines
152–167) that carry naming facts: the five `CREATE SEQUENCE` statements,
the `CREATE TABLE` statements of `albums`, `tracks`, `venues` and
`concerts`, and the five `deleted_at` index statements, verbatim. -/
def emulatorDryRunStatements : List String :=
  ["CREATE SEQUENCE IF NOT EXISTS singers_seq OPTIONS (sequence_kind = \"bit_reversed_positive\")",
   "CREATE INDEX `idx_singers_deleted_at` ON `singers`(`deleted_at`)",
   "CREATE SEQUENCE IF NOT EXISTS albums_seq OPTIONS (sequence_kind = \"bit_reversed_positive\")",
   "CREATE TABLE `albums` (`id` INT64 DEFAULT (GET_NEXT_SEQUENCE_VALUE(Sequence albums_seq)),`created_at` TIMESTAMP,`updated_at` TIMESTAMP,`deleted_at` TIMESTAMP,`title` STRING(MAX),`marketing_budget` BOOL,`release_date` date,`cover_picture` BYTES(MAX),`singer_id` INT64,CONSTRAINT `fk_singers_albums` FOREIGN KEY (`singer_id`) REFERENCES `singers`(`id`)) PRIMARY KEY (`id`)",
   "CREATE INDEX `idx_albums_deleted_at` ON `albums`(`deleted_at`)",
   "CREATE SEQUENCE IF NOT EXISTS tracks_seq OPTIONS (sequence_kind = \"bit_reversed_positive\")",
   "CREATE TABLE `tracks` (`id` INT64 DEFAULT (GET_NEXT_SEQUENCE_VALUE(Sequence tracks_seq)),`created_at` TIMESTAMP,`updated_at` TIMESTAMP,`deleted_at` TIMESTAMP,`track_number` INT64,`title` STRING(MAX),`sample_rate` FLOAT64,`album_id` INT64,CONSTRAINT `fk_albums_tracks` FOREIGN KEY (`album_id`) REFERENCES `albums`(`id`)) PRIMARY KEY (`id`)",
   "CREATE INDEX `idx_tracks_deleted_at` ON `tracks`(`deleted_at`)",
   "CREATE SEQUENCE IF NOT EXISTS venues_seq OPTIONS (sequence_kind = \"bit_reversed_positive\")",
   "CREATE TABLE `venues` (`id` INT64 DEFAULT (GET_NEXT_SEQUENCE_VALUE(Sequence venues_seq)),`created_at` TIMESTAMP,`updated_at` TIMESTAMP,`deleted_at` TIMESTAMP,`name` STRING(MAX),`description` JSON) PRIMARY KEY (`id`)",
   "CREATE INDEX `idx_venues_deleted_at` ON `venues`(`deleted_at`)",
   "CREATE SEQUENCE IF NOT EXISTS concerts_seq OPTIONS (sequence_kind = \"bit_reversed_positive\")",
   "CREATE TABLE `concerts` (`id` INT64 DEFAULT (GET_NEXT_SEQUENCE_VALUE(Sequence concerts_seq)),`created_at` TIMESTAMP,`updated_at` TIMESTAMP,`deleted_at` TIMESTAMP,`name` STRING(MAX),`venue_id` INT64,`singer_id` INT64,`start_time` TIMESTAMP,`end_time` TIMESTAMP,CONSTRAINT `fk_singers_concerts` FOREIGN KEY (`singer_id`) REFERENCES `singers`(`id`),CONSTRAINT `fk_venues_concerts` FOREIGN KEY (`venue_id`) REFERENCES `venues`(`id`)) PRIMARY KEY (`id`)",
   "CREATE INDEX `idx_concerts_time` ON `concerts`(`start_time`,`end_time`)",
   "CREATE INDEX `idx_concerts_deleted_at` ON `concerts`(`deleted_at`)"]

/-- Every maximal run of characters that follows an occurrence of `pat` and
stops before `stop`, scanning the character list left to right. -/
def extractAfter (pat : List Char) (stop : Char) : List Char → List (List Char)
  | [] => []
  | c :: rest =>
    if pat.isPrefixOf (c :: rest) then
      (((c :: rest).drop pat.length).takeWhile (fun d => d ≠ stop)) ::
        extractAfter pat stop rest
    else extractAfter pat stop rest

/-- Whether `pat` occurs as a contiguous substring. -/
def hasSub (pat : List Char) : List Char → Bool
  | [] => pat.isEmpty
  | c :: rest => pat.isPrefixOf (c :: rest) || hasSub pat rest

/-- The identifier occurrences following `pat` (up to the quote/terminator
`stop`) in a statement, as strings. -/
def namesAfter (pat : String) (stop : Char) (s : String) : List String :=
  (extractAfter pat.data stop s.data).map (fun l => String.mk l)

/-- All identifier occurrences following `pat` across a statement list. -/
def allNamesAfter (pat : String) (stop : Char) (stmts : List String) :
    List String :=
  stmts.flatMap (namesAfter pat stop)

/-- An association declaration of the test models: the table of the model
declaring the association field, and the field's snake-cased name.  gorm
derives a foreign-key constraint name from the two. -/
structure AssociationDecl where
  declTable : String
  fieldName : String
  deriving DecidableEq

/-- gorm's foreign-key constraint naming: `fk_<declaring table>_<field>`. -/
def gormFkName (a : AssociationDecl) : String :=
  "fk_" ++ a.declTable ++ "_" ++ a.fieldName

/-- The associations declared by the models of `TestMigrate`
(`postgresql/spanner.go`, lines 318–339): `album.Singer` and `test.Singer`
— both declared on the child model. -/
def testMigrateAssociations : List AssociationDecl :=
  [{ declTable := "albums", fieldName := "singer" },
   { declTable := "tests", fieldName := "singer" }]

/-- The associations declared by the models of
`TestAutoMigrate_CreateDataModel` (`migrator_emulator_test.go`, lines
38–84) whose foreign keys appear in the embedded statements:
`Singer.Albums`, `Album.Tracks`, `Singer.Concerts`, `Venue.Concerts` — all
declared on the parent model. -/
def emulatorAssociations : List AssociationDecl :=
  [{ declTable := "singers", fieldName := "albums" },
   { declTable := "albums", fieldName := "tracks" },
   { declTable := "singers", fieldName := "concerts" },
   { declTable := "venues", fieldName := "concerts" }]

/-! ## Concrete schemas from the repository's tests

The models of `TestMigrateMultipleTimesUniqueIndexSameFieldName` and
`TestMigrateUniqueFieldFails`: `gorm.Model` contributes `id` (uint, primary
key, auto-increment), `created_at`/`updated_at` (time),
`deleted_at` (time, soft-delete index), and each model adds a `SHA256`
string column — plain in `As`, unique-indexed in `Bs`, and a genuine
UNIQUE constraint in the failing test's model. -/

/-- The `gorm.Model` `ID` column: uint primary key, auto-increment. -/
def colId : DesiredColumn :=
  { name := "id", dataType := .uint, autoIncrement := true, notNull := true,
    primaryKey := true, hasDefault := false, defaultValue := "",
    genExpr := none, unique := false }

/-- The `gorm.Model` `CreatedAt` column. -/
def colCreatedAt : DesiredColumn :=
  { name := "created_at", dataType := .time, autoIncrement := false,
    notNull := false, primaryKey := false, hasDefault := false,
    defaultValue := "", genExpr := none, unique := false }

/-- The `gorm.Model` `UpdatedAt` column. -/
def colUpdatedAt : DesiredColumn :=
  { name := "updated_at", dataType := .time, autoIncrement := false,
    notNull := false, primaryKey := false, hasDefault := false,
    defaultValue := "", genExpr := none, unique := false }

/-- The `gorm.Model` `DeletedAt` column (soft delete, indexed). -/
def colDeletedAt : DesiredColumn :=
  { name := "deleted_at", dataType := .time, autoIncrement := false,
    notNull := false, primaryKey := false, hasDefault := false,
    defaultValue := "", genExpr := none, unique := false }

/-- A plain string `SHA256` column. -/
def colSha256 : DesiredColumn :=
  { name := "sha256", dataType := .string, autoIncrement := false,
    notNull := false, primaryKey := false, hasDefault := false,
    defaultValue := "", genExpr := none, unique := false }

/-- The `As` model of `TestMigrateMultipleTimesUniqueIndexSameFieldName`:
`gorm.Model` plus a plain `SHA256` string. -/
def asTable : DesiredTable :=
  { name := "as",
    columns := [colId, colCreatedAt, colUpdatedAt, colDeletedAt, colSha256],
    indexes := [{ name := "idx_as_deleted_at", columns := ["deleted_at"],
                  unique := false }],
    foreignKeys := [] }

/-- The `Bs` model of the same test: `gorm.Model` plus a unique-indexed
`SHA256` string. -/
def bsTable : DesiredTable :=
  { name := "bs",
    columns := [colId, colCreatedAt, colUpdatedAt, colDeletedAt, colSha256],
    indexes := [{ name := "idx_bs_deleted_at", columns := ["deleted_at"],
                  unique := false },
                { name := "idx_bs_sha256", columns := ["sha256"],
                  unique := true }],
    foreignKeys := [] }

/-- The `As` model of `TestMigrateUniqueFieldFails`: `gorm.Model` plus a
`SHA256` string declared with a genuine UNIQUE column constraint
(`gorm:"unique"`). -/
def asUniqueTable : DesiredTable :=
  { name := "as",
    columns := [colId, colCreatedAt, colUpdatedAt, colDeletedAt,
                { colSha256 with unique := true }],
    indexes := [{ name := "idx_as_deleted_at", columns := ["deleted_at"],
                  unique := false }],
    foreignKeys := [] }

/-- The constraint catalog after `As` and `Bs` are migrated together: each
table's primary key, and the unique constraint on `bs.sha256` only. -/
def asBsCatalog : List ConstraintRow :=
  [{ tableSchema := "public", tableName := "as", columnName := "id",
     constraintName := "PRIMARY_KEY_as", constraintType := "PRIMARY KEY" },
   { tableSchema := "public", tableName := "bs", columnName := "id",
     constraintName := "PRIMARY_KEY_bs", constraintType := "PRIMARY KEY" },
   { tableSchema := "public", tableName := "bs", columnName := "sha256",
     constraintName := "uni_bs_sha256", constraintType := "UNIQUE" }]

/-- The same catalog with table `bs` absent: only `As`'s rows. -/
def asOnlyCatalog : List ConstraintRow :=
  [{ tableSchema := "public", tableName := "as", columnName := "id",
     constraintName := "PRIMARY_KEY_as", constraintType := "PRIMARY KEY" }]

/-- The `singer` model of `TestMigrate` as a bare desired table (no foreign
keys). -/
def singersTable : DesiredTable :=
  { name := "singers",
    columns := [colId, colCreatedAt, colUpdatedAt, colDeletedAt],
    indexes := [{ name := "idx_singers_deleted_at",
                  columns := ["deleted_at"], unique := false }],
    foreignKeys := [] }

/-- The `album` model of `TestMigrate`: references `singers` via
`fk_albums_singer`. -/
def albumsTable : DesiredTable :=
  { name := "albums",
    columns := [colId, colCreatedAt, colUpdatedAt, colDeletedAt,
                { name := "singer_id", dataType := .int,
                  autoIncrement := false, notNull := false,
                  primaryKey := false, hasDefault := false,
                  defaultValue := "", genExpr := none, unique := false }],
    indexes := [{ name := "idx_albums_deleted_at",
                  columns := ["deleted_at"], unique := false }],
    foreignKeys := [{ name := "fk_albums_singer",
                      parentTable := "singers" }] }

/-! ## Helper lemmas -/

theorem key_eq_of_mem_nodup {α : Type} (key : α → String) :
    ∀ (l : List α), (l.map key).Nodup →
      ∀ a ∈ l, ∀ b ∈ l, key a = key b → a = b := by
  intro l
  induction l with
  | nil => intro _ a ha; cases ha
  | cons x xs ih =>
    intro hnd a ha b hb hab
    simp only [List.map_cons, List.nodup_cons] at hnd
    rcases List.mem_cons.mp ha with rfl | ha' <;>
      rcases List.mem_cons.mp hb with rfl | hb'
    · rfl
    · exact absurd (hab ▸ List.mem_map_of_mem key hb') hnd.1
    · exact absurd (hab ▸ List.mem_map_of_mem key ha') hnd.1
    · exact ih hnd.2 a ha' b hb' hab

theorem find?_map_of_nodup {α β : Type} (key : α → String) (f : α → β)
    (keyb : β → String) (hk : ∀ a, keyb (f a) = key a) :
    ∀ (l : List α), (l.map key).Nodup → ∀ a ∈ l,
      (l.map f).find? (fun b => keyb b == key a) = some (f a) := by
  intro l
  induction l with
  | nil => intro _ a ha; cases ha
  | cons x xs ih =>
    intro hnd a ha
    simp only [List.map_cons, List.nodup_cons] at hnd
    rcases List.mem_cons.mp ha with rfl | ha'
    · rw [List.map_cons, List.find?_cons_of_pos]
      simp [hk]
    · have hne : key x ≠ key a :=
        fun h => hnd.1 (h ▸ List.mem_map_of_mem key ha')
      rw [List.map_cons, List.find?_cons_of_neg, ih hnd.2 a ha']
      simp [hk, hne]

theorem typesEquivalent_catalogRaw (dt : GormDataType) (ai : Bool) :
    typesEquivalent (catalogTypeOf (dataTypeOfRaw dt ai))
      (dataTypeOfRaw dt ai) = true := by
  cases dt <;> cases ai <;> decide

theorem typesEquivalent_catalog (c : DesiredColumn) :
    typesEquivalent (catalogTypeOf (dataTypeOf c)) (dataTypeOf c) = true :=
  typesEquivalent_catalogRaw c.dataType c.autoIncrement

theorem isColumnGenerated_of_mem (t : LiveTable) (lc : LiveColumn)
    (col : String) (hmem : lc ∈ t.columns) (hname : lc.name = col)
    (hsome : lc.generationExpression.isSome) :
    isColumnGenerated t col = true := by
  unfold isColumnGenerated
  have hmf : lc ∈ t.columns.filter
      (fun c => c.name == col && c.generationExpression.isSome) := by
    rw [List.mem_filter]
    exact ⟨hmem, by simp [hname, hsome]⟩
  have hpos : 0 < (t.columns.filter
      (fun c => c.name == col && c.generationExpression.isSome)).length :=
    List.length_pos.mpr (List.ne_nil_of_mem hmf)
  exact decide_eq_true hpos

theorem isColumnGenerated_eq_false (t : LiveTable) (col : String)
    (h : ∀ lc ∈ t.columns, lc.name = col → lc.generationExpression = none) :
    isColumnGenerated t col = false := by
  unfold isColumnGenerated
  have hnil : t.columns.filter
      (fun c => c.name == col && c.generationExpression.isSome) = [] := by
    apply List.filter_eq_nil_iff.mpr
    intro lc hlc
    by_cases hn : lc.name = col
    · simp [h lc hlc hn]
    · simp [hn]
  rw [hnil]
  rfl

theorem planColumn_liveSelf (d : DesiredTable) (c : DesiredColumn)
    (hnd : (d.columns.map DesiredColumn.name).Nodup) (hc : c ∈ d.columns) :
    planColumn (liveTableOf d) (liveColumnOf c) c = [] := by
  unfold planColumn
  by_cases hpk : c.primaryKey = true
  · simp [hpk]
  · replace hpk : c.primaryKey = false := by
      cases h : c.primaryKey
      · rfl
      · exact absurd h hpk
    rcases hg : c.genExpr with _ | e
    · have hgen : isColumnGenerated (liveTableOf d) c.name = false := by
        apply isColumnGenerated_eq_false
        intro lc hlc hname
        rcases List.mem_map.mp hlc with ⟨c', hc', rfl⟩
        have hcc : c' = c :=
          key_eq_of_mem_nodup DesiredColumn.name d.columns hnd c' hc' c hc
            (by simpa [liveColumnOf] using hname)
        subst hcc
        simp [liveColumnOf, hg]
      have htype := typesEquivalent_catalog c
      have hnn : ((liveColumnOf c).nullable == c.notNull) = false := by
        cases h : c.notNull <;> simp [liveColumnOf, h]
      have hdef : ((liveColumnOf c).default == desiredDefault c) = true := by
        simp [liveColumnOf]
      simp [hpk, hgen, liveColumnOf, htype, hnn, hdef]
    · have hgen : isColumnGenerated (liveTableOf d) c.name = true := by
        apply isColumnGenerated_of_mem (liveTableOf d) (liveColumnOf c)
        · exact List.mem_map_of_mem liveColumnOf hc
        · rfl
        · simp [liveColumnOf, hg]
      simp [hpk, hgen]

theorem find?_liveColumn (d : DesiredTable) (c : DesiredColumn)
    (hnd : (d.columns.map DesiredColumn.name).Nodup) (hc : c ∈ d.columns) :
    (liveTableOf d).columns.find? (fun lc => lc.name == c.name) =
      some (liveColumnOf c) :=
  find?_map_of_nodup DesiredColumn.name liveColumnOf LiveColumn.name
    (fun _ => rfl) d.columns hnd c hc

theorem existingTableActions_liveSelf (d : DesiredTable)
    (hnd : (d.columns.map DesiredColumn.name).Nodup) :
    existingTableActions (liveTableOf d) d = [] := by
  unfold existingTableActions
  have h1 : (needsSequence d && !(liveTableOf d).hasSequence) = false := by
    cases h : needsSequence d <;> simp [liveTableOf, h]
  have h2 : (!needsSequence d && (liveTableOf d).hasSequence) = false := by
    cases h : needsSequence d <;> simp [liveTableOf, h]
  have h3 : d.columns.flatMap (fun c =>
      match (liveTableOf d).columns.find? (fun lc => lc.name == c.name) with
      | none => [MigrationAction.addColumn d.name c.name]
      | some lc => planColumn (liveTableOf d) lc c) = [] := by
    apply List.flatMap_eq_nil_iff.mpr
    intro c hc
    rw [find?_liveColumn d c hnd hc]
    exact planColumn_liveSelf d c hnd hc
  have h4 : d.indexes.filter (fun i =>
      !((liveTableOf d).indexes.any (fun li => li.name == i.name))) = [] := by
    apply List.filter_eq_nil_iff.mpr
    intro i hi
    have : (liveTableOf d).indexes.any (fun li => li.name == i.name) = true := by
      apply List.any_eq_true.mpr
      exact ⟨liveIndexOf i, List.mem_map_of_mem liveIndexOf hi,
        by simp [liveIndexOf]⟩
    simp [this]
  have h5 : (liveTableOf d).indexes.filter (fun li =>
      li.managerOwned && !(d.indexes.any (fun i => i.name == li.name))) = [] := by
    apply List.filter_eq_nil_iff.mpr
    intro li hli
    rcases List.mem_map.mp hli with ⟨i, hi, rfl⟩
    have : d.indexes.any (fun i' => i'.name == (liveIndexOf i).name) = true := by
      apply List.any_eq_true.mpr
      exact ⟨i, hi, by simp [liveIndexOf]⟩
    simp [this]
  have h6 : d.foreignKeys.filter
      (fun fk => !((liveTableOf d).fks.contains fk.name)) = [] := by
    apply List.filter_eq_nil_iff.mpr
    intro fk hfk
    have hm : fk.name ∈ (liveTableOf d).fks :=
      List.mem_map_of_mem ForeignKey.name hfk
    simp [hm]
  have h7 : (liveTableOf d).fks.filter
      (fun n => !(d.foreignKeys.any (fun fk => fk.name == n))) = [] := by
    apply List.filter_eq_nil_iff.mpr
    intro n hn
    rcases List.mem_map.mp hn with ⟨fk, hfk, rfl⟩
    have : d.foreignKeys.any (fun fk' => fk'.name == fk.name) = true := by
      apply List.any_eq_true.mpr
      exact ⟨fk, hfk, by simp⟩
    simp [this]
  simp [h1, h2, h3, h4, h5, h6, h7]
  intro a ha
  exact List.mem_map_of_mem ForeignKey.name ha

theorem planTable_applied (live : LiveSchema) (ds : List DesiredTable)
    (hnd : (ds.map DesiredTable.name).Nodup)
    (d : DesiredTable) (hd : d ∈ ds)
    (hcols : (d.columns.map DesiredColumn.name).Nodup) :
    planTable (applyMigration live ds) d = [] := by
  unfold planTable applyMigration
  rw [List.find?_append]
  have hfind : (ds.map liveTableOf).find? (fun t => t.name == d.name) =
      some (liveTableOf d) :=
    find?_map_of_nodup DesiredTable.name liveTableOf LiveTable.name
      (fun _ => rfl) ds hnd d hd
  rw [hfind]
  exact existingTableActions_liveSelf d hcols

/-! ## Claim theorems -/

/-- C1: For every desired schema `D` (with well-formed table and column
names, and no genuine UNIQUE column constraint, which the first, completed
run presupposes), running AutoMigrate to completion and then planning again
with the same `D` against the resulting live schema yields an empty action
list: the second run succeeds and emits no schema-changing DDL statement. -/
theorem autoMigrate_idempotent (live : LiveSchema) (ds : List DesiredTable)
    (hnd : (ds.map DesiredTable.name).Nodup)
    (hcols : ∀ d ∈ ds, (d.columns.map DesiredColumn.name).Nodup)
    (huniq : hasGenuineUniqueConstraint ds = false) :
    planChecked (applyMigration live ds) ds = .ok [] := by
  unfold planChecked
  rw [huniq]
  have hplan : plan (applyMigration live ds) ds = [] := by
    unfold plan
    apply List.flatMap_eq_nil_iff.mpr
    intro d hd
    exact planTable_applied live ds hnd d hd (hcols d hd)
  simp [hplan]

theorem autoMigrate_idempotent_witness :
    ((([asTable, bsTable].map DesiredTable.name).Nodup) ∧
     (∀ d ∈ [asTable, bsTable], (d.columns.map DesiredColumn.name).Nodup) ∧
     hasGenuineUniqueConstraint [asTable, bsTable] = false) ∧
    planChecked (applyMigration [] [asTable, bsTable]) [asTable, bsTable] =
      .ok [] :=
  ⟨⟨by decide, by decide, by decide⟩,
   autoMigrate_idempotent [] [asTable, bsTable] (by decide) (by decide)
     (by decide)⟩

/-- C2: Introspecting table `A`'s uniqueness facts is unaffected by every
other table — for any two catalogs that agree on the rows of table `A`,
`ColumnTypes(A)` reports identical unique/primary-key attribution for `A`'s
columns; in particular, with `As{SHA256}` and `Bs{SHA256 unique}` migrated
together, the unique fact is attributed to `bs.sha256` and not to
`as.sha256`, and migrating `As` again alone produces zero actions (hence no
spurious drop of a nonexistent unique constraint on `As`). -/
theorem columnTypes_no_cross_table_leakage (cat1 cat2 : List ConstraintRow)
    (sch tbl : String)
    (h : tableRows cat1 sch tbl = tableRows cat2 sch tbl) :
    (∀ col, columnIsUnique cat1 sch tbl col = columnIsUnique cat2 sch tbl col ∧
      columnIsPrimaryKey cat1 sch tbl col =
        columnIsPrimaryKey cat2 sch tbl col) ∧
    columnIsUnique asBsCatalog "public" "as" "sha256" = false ∧
    columnIsUnique asBsCatalog "public" "bs" "sha256" = true ∧
    planChecked (applyMigration [] [asTable, bsTable]) [asTable] = .ok [] := by
  refine ⟨?_, by decide, by decide, by decide⟩
  intro col
  constructor <;>
    simp only [columnIsUnique, columnIsPrimaryKey, uniqueConstraintCount,
      tableConstraintRows, h]

theorem columnTypes_no_cross_table_leakage_witness :
    (tableRows asBsCatalog "public" "as" =
      tableRows asOnlyCatalog "public" "as") ∧
    (∀ col, columnIsUnique asBsCatalog "public" "as" col =
        columnIsUnique asOnlyCatalog "public" "as" col ∧
      columnIsPrimaryKey asBsCatalog "public" "as" col =
        columnIsPrimaryKey asOnlyCatalog "public" "as" col) ∧
    columnIsUnique asBsCatalog "public" "as" "sha256" = false ∧
    columnIsUnique asBsCatalog "public" "bs" "sha256" = true ∧
    planChecked (applyMigration [] [asTable, bsTable]) [asTable] = .ok [] :=
  ⟨by decide,
   (columnTypes_no_cross_table_leakage asBsCatalog asOnlyCatalog
     "public" "as" (by decide)).1,
   (columnTypes_no_cross_table_leakage asBsCatalog asOnlyCatalog
     "public" "as" (by decide)).2.1,
   (columnTypes_no_cross_table_leakage asBsCatalog asOnlyCatalog
     "public" "as" (by decide)).2.2.1,
   (columnTypes_no_cross_table_leakage asBsCatalog asOnlyCatalog
     "public" "as" (by decide)).2.2.2⟩

/-- C7: A live column whose metadata carries a generation expression is
never touched by `AlterColumn` on subsequent reconciliations: the planner
emits no action for it — in particular no type alteration and no
default-value change — even if its declared default superficially looks
different from the live one (the desired column `c` here is arbitrary). -/
theorem generated_column_immutable (t : LiveTable) (lc : LiveColumn)
    (c : DesiredColumn) (e : String)
    (hmem : lc ∈ t.columns) (hname : lc.name = c.name)
    (hgen : lc.generationExpression = some e) :
    planColumn t lc c = [] ∧
    MigrationAction.alterColumnType t.name c.name ∉ planColumn t lc c ∧
    MigrationAction.alterColumnDefault t.name c.name ∉ planColumn t lc c := by
  have hg : isColumnGenerated t c.name = true :=
    isColumnGenerated_of_mem t lc c.name hmem hname (by simp [hgen])
  have hnil : planColumn t lc c = [] := by
    unfold planColumn
    by_cases hpk : c.primaryKey = true <;> simp [hpk, hg]
  refine ⟨hnil, ?_, ?_⟩ <;> simp [hnil]

theorem generated_column_immutable_witness :
    (LiveColumn.mk "full_name" "varchar" true (some "live-default")
        (some "concat(first_name, last_name)") false ∈
      (LiveTable.mk "singers"
        [LiveColumn.mk "full_name" "varchar" true (some "live-default")
          (some "concat(first_name, last_name)") false] [] [] true).columns) ∧
    ((LiveColumn.mk "full_name" "varchar" true (some "live-default")
        (some "concat(first_name, last_name)") false).name = "full_name") ∧
    ((LiveColumn.mk "full_name" "varchar" true (some "live-default")
        (some "concat(first_name, last_name)") false).generationExpression =
      some "concat(first_name, last_name)") ∧
    planColumn
      (LiveTable.mk "singers"
        [LiveColumn.mk "full_name" "varchar" true (some "live-default")
          (some "concat(first_name, last_name)") false] [] [] true)
      (LiveColumn.mk "full_name" "varchar" true (some "live-default")
        (some "concat(first_name, last_name)") false)
      (DesiredColumn.mk "full_name" .string false false false true
        "different-default" (some "concat(first_name, last_name)") false) =
      [] :=
  ⟨by decide, rfl, rfl,
   (generated_column_immutable _ _
     (DesiredColumn.mk "full_name" .string false false false true
       "different-default" (some "concat(first_name, last_name)") false)
     "concat(first_name, last_name)" (by decide) rfl rfl).1⟩

/-- C8, counterexample: `HasTable` does not propagate a query error — it
returns `false`, exactly what it returns for a missing table, so the two
cases are indistinguishable from its result. -/
theorem hasTable_error_counterexample :
    hasTable (.err "connection reset") = false ∧
    hasTable (.ok 0) = false ∧
    hasTable (.err "connection reset") = hasTable (.ok 0) :=
  ⟨rfl, rfl, rfl⟩

/-- C8, amended: `HasTable` reports a missing table as absent (`false`)
and also swallows a query error into `false` — it cannot distinguish the
two from its boolean result; the error-returning introspection calls
(`GetTables`) propagate a query error verbatim. -/
theorem hasTable_amended (e : String) (n : Nat) (l : List String) :
    hasTable (.err e) = false ∧
    (hasTable (.ok n) = true ↔ 0 < n) ∧
    getTables (.err e) = .error e ∧
    getTables (.ok l) = .ok l := by
  refine ⟨rfl, ?_, rfl, rfl⟩
  simp [hasTable]

/-- C10: the `BeforeUpdate` callback appends the schema's primary-key
column names to the statement's omit list, so a primary-key column is never
assigned a value by the SET clause of an UPDATE built afterwards. -/
theorem beforeUpdate_omits_primary_keys (fields : List String)
    (st : UpdateStmt) (pks : List String)
    (h : st.schema = some { primaryFieldDBNames := some pks }) :
    ∀ pk ∈ pks, pk ∈ (beforeUpdate st).omits ∧
      pk ∉ updateSetColumns fields (beforeUpdate st) := by
  intro pk hpk
  have homit : (beforeUpdate st).omits = st.omits ++ pks := by
    unfold beforeUpdate
    rw [h]
  refine ⟨homit ▸ List.mem_append_right _ hpk, ?_⟩
  intro hmem
  rcases List.mem_filter.mp hmem with ⟨_, hnot⟩
  rw [homit] at hnot
  simp at hnot
  exact hnot.2 hpk

theorem beforeUpdate_omits_primary_keys_witness :
    ((UpdateStmt.mk (some { primaryFieldDBNames := some ["id"] })
        ["other"]).schema =
      some { primaryFieldDBNames := some ["id"] }) ∧
    ("id" ∈ (beforeUpdate
        (UpdateStmt.mk (some { primaryFieldDBNames := some ["id"] })
          ["other"])).omits ∧
     "id" ∉ updateSetColumns ["id", "first_name", "last_name"]
        (beforeUpdate
          (UpdateStmt.mk (some { primaryFieldDBNames := some ["id"] })
            ["other"]))) :=
  ⟨rfl,
   beforeUpdate_omits_primary_keys ["id", "first_name", "last_name"]
     (UpdateStmt.mk (some { primaryFieldDBNames := some ["id"] }) ["other"])
     ["id"] rfl "id" (by decide)⟩

/-- C3: A desired schema declaring a genuine UNIQUE column constraint makes
AutoMigrate fail with the specific, stable error (no silent downgrade to a
unique index), the live schema is unchanged, and repeating the identical
request against the resulting state yields the identical error again. -/
theorem unique_constraint_rejected (dis : Bool) (ds : List DesiredTable)
    (st : DBState) (hu : hasGenuineUniqueConstraint ds = true) :
    (autoMigrateRunModel dis noFailures ds st).ret =
      .error errUniqueConstraintNotSupported ∧
    (autoMigrateRunModel dis noFailures ds st).finalState.live = st.live ∧
    (autoMigrateRunModel dis noFailures ds
        (autoMigrateRunModel dis noFailures ds st).finalState).ret =
      .error errUniqueConstraintNotSupported := by
  unfold autoMigrateRunModel autoMigrateModel
  cases dis <;> simp [noFailures, hu]

theorem unique_constraint_rejected_witness :
    hasGenuineUniqueConstraint [asUniqueTable] = true ∧
    ((autoMigrateRunModel false noFailures [asUniqueTable]
        (DBState.mk [] false none)).ret =
      .error errUniqueConstraintNotSupported ∧
     (autoMigrateRunModel false noFailures [asUniqueTable]
        (DBState.mk [] false none)).finalState.live = [] ∧
     (autoMigrateRunModel false noFailures [asUniqueTable]
        (autoMigrateRunModel false noFailures [asUniqueTable]
          (DBState.mk [] false none)).finalState).ret =
      .error errUniqueConstraintNotSupported) :=
  ⟨by decide,
   unique_constraint_rejected false [asUniqueTable]
     (DBState.mk [] false none) (by decide)⟩

/-- C4: Against an unchanged live schema, `AutoMigrateDryRun` leaves the
connection state exactly as it found it (live schema, sequence-kind option
and batch all unchanged), never commits the batch (`RUN BATCH` is never
issued), and calling it twice in succession returns the same statement list
both times. -/
theorem dryRun_no_mutation (dis : Bool) (ds : List DesiredTable)
    (st : DBState) (hb : st.batch = none)
    (hu : hasGenuineUniqueConstraint ds = false) :
    (autoMigrateDryRunModel dis noFailures ds st).finalState = st ∧
    BatchEvent.run ∉ (autoMigrateDryRunModel dis noFailures ds st).trace ∧
    ∃ stmts,
      (autoMigrateDryRunModel dis noFailures ds st).ret = .ok (some stmts) ∧
      (autoMigrateDryRunModel dis noFailures ds
        (autoMigrateDryRunModel dis noFailures ds st).finalState).ret =
        .ok (some stmts) := by
  have hst : ({ st with batch := none } : DBState) = st := by
    cases st with
    | mk l dk b => simp only at hb; rw [hb]
  have hr : autoMigrateDryRunModel dis noFailures ds st =
      { ret := .ok (some ((if st.defaultSequenceKindSet then []
            else [DdlStmt.alterDatabaseSetDefaultSequenceKind]) ++
            renderTableStmts st.live ds)),
        finalState := { st with batch := none },
        trace := [.start, .abort, .abort] } := by
    unfold autoMigrateDryRunModel autoMigrateModel
    simp [noFailures, hu]
  refine ⟨?_, ?_, (if st.defaultSequenceKindSet then []
      else [DdlStmt.alterDatabaseSetDefaultSequenceKind]) ++
      renderTableStmts st.live ds, ?_, ?_⟩
  · rw [hr]
    exact hst
  · rw [hr]
    simp
  · rw [hr]
  · rw [hr]
    show (autoMigrateDryRunModel dis noFailures ds
      { st with batch := none }).ret = _
    rw [hst, hr]

theorem dryRun_no_mutation_witness :
    ((DBState.mk [] true none).batch = none ∧
     hasGenuineUniqueConstraint [asTable] = false) ∧
    ((autoMigrateDryRunModel false noFailures [asTable]
        (DBState.mk [] true none)).finalState = DBState.mk [] true none ∧
     BatchEvent.run ∉ (autoMigrateDryRunModel false noFailures [asTable]
        (DBState.mk [] true none)).trace ∧
     ∃ stmts,
       (autoMigrateDryRunModel false noFailures [asTable]
          (DBState.mk [] true none)).ret = .ok (some stmts) ∧
       (autoMigrateDryRunModel false noFailures [asTable]
          (autoMigrateDryRunModel false noFailures [asTable]
            (DBState.mk [] true none)).finalState).ret = .ok (some stmts)) :=
  ⟨⟨rfl, by decide⟩,
   dryRun_no_mutation false [asTable] (DBState.mk [] true none) rfl
     (by decide)⟩

/-- C5: On every exit path of `autoMigrate` — every error return and the
entire dry-run path included — no batch is left open on the connection, and
whenever a batch was started and not committed via `RUN BATCH`, an
`ABORT BATCH` was issued before the function returned (the deferred abort
of lines 110–114). -/
theorem batch_always_closed (dryRun dis : Bool) (fails : FailSpec)
    (ds : List DesiredTable) (st : DBState) (hb : st.batch = none) :
    (autoMigrateModel dryRun dis fails ds st).finalState.batch = none ∧
    (BatchEvent.start ∈ (autoMigrateModel dryRun dis fails ds st).trace ∧
       BatchEvent.run ∉ (autoMigrateModel dryRun dis fails ds st).trace →
     BatchEvent.abort ∈ (autoMigrateModel dryRun dis fails ds st).trace) := by
  unfold autoMigrateModel
  dsimp only
  split_ifs <;> simp_all

theorem batch_always_closed_witness :
    (DBState.mk [] false none).batch = none ∧
    ((autoMigrateModel true false
        (FailSpec.mk false false false false true false) [asTable]
        (DBState.mk [] false none)).finalState.batch = none ∧
     (BatchEvent.start ∈ (autoMigrateModel true false
          (FailSpec.mk false false false false true false) [asTable]
          (DBState.mk [] false none)).trace ∧
        BatchEvent.run ∉ (autoMigrateModel true false
          (FailSpec.mk false false false false true false) [asTable]
          (DBState.mk [] false none)).trace →
      BatchEvent.abort ∈ (autoMigrateModel true false
          (FailSpec.mk false false false false true false) [asTable]
          (DBState.mk [] false none)).trace)) :=
  ⟨rfl,
   batch_always_closed true false
     (FailSpec.mk false false false false true false) [asTable]
     (DBState.mk [] false none) rfl⟩

theorem sublist_flatMap_mono {α β : Type} (f : α → List β) :
    ∀ {l₁ l₂ : List α}, l₁.Sublist l₂ →
      (l₁.flatMap f).Sublist (l₂.flatMap f) := by
  intro l₁ l₂ h
  induction h with
  | slnil => simp
  | cons a h ih =>
    rw [List.flatMap_cons]
    exact ih.trans (List.sublist_append_right _ _)
  | cons₂ a h ih =>
    rw [List.flatMap_cons, List.flatMap_cons]
    exact (List.Sublist.refl _).append ih

theorem topoRounds_perm : ∀ (fuel : Nat) (rem : List DesiredTable),
    (topoRounds fuel rem).Perm rem := by
  intro fuel
  induction fuel with
  | zero => intro rem; exact List.Perm.refl rem
  | succ n ih =>
    intro rem
    unfold topoRounds
    dsimp only
    split
    · exact List.Perm.refl rem
    · exact ((List.Perm.append_left _ (ih _)).trans
        (List.filter_append_perm _ rem))

theorem ready_exists (rank : String → Nat) (rem : List DesiredTable)
    (hne : rem ≠ [])
    (hranked : ∀ c ∈ rem, ∀ p ∈ rem,
      refsTable c p → rank p.name < rank c.name) :
    ∃ d ∈ rem, readyTable rem d = true := by
  rcases ho : rem.argmin (fun d => rank d.name) with _ | m
  · exact absurd (List.argmin_eq_none.mp ho) hne
  · refine ⟨m, List.argmin_mem ho, ?_⟩
    unfold readyTable
    apply List.all_eq_true.mpr
    intro fk hfk
    by_cases hself : fk.parentTable = m.name
    · simp [hself]
    · rw [Bool.or_eq_true]
      right
      apply List.all_eq_true.mpr
      intro q hq
      by_cases hqn : q.name = fk.parentTable
      · exfalso
        have hrefs : refsTable m q := by
          refine ⟨by rw [hqn]; exact hself, fk, hfk, hqn.symm⟩
        have hlt := hranked m (List.argmin_mem ho) q hq hrefs
        have hle := List.le_of_mem_argmin hq ho
        omega
      · simp [hqn]

theorem topo_before (rank : String → Nat) :
    ∀ (fuel : Nat) (rem : List DesiredTable), rem.length ≤ fuel →
      (∀ c ∈ rem, ∀ p ∈ rem, refsTable c p → rank p.name < rank c.name) →
      ∀ p c, p ∈ rem → c ∈ rem → refsTable c p →
        [p, c].Sublist (topoRounds fuel rem) := by
  intro fuel
  induction fuel with
  | zero =>
    intro rem hlen _ p c hp _ _
    have : rem = [] := List.length_eq_zero.mp (Nat.le_zero.mp hlen)
    subst this
    cases hp
  | succ n ih =>
    intro rem hlen hranked p c hp hc hrefs
    obtain ⟨hpc, fk, hfk, hfkp⟩ := hrefs
    unfold topoRounds
    dsimp only
    by_cases hrd : (rem.filter (readyTable rem)).isEmpty = true
    · exfalso
      have hne : rem ≠ [] := fun h => by subst h; cases hp
      obtain ⟨d, hd, hready⟩ := ready_exists rank rem hne hranked
      have hdmem : d ∈ rem.filter (readyTable rem) :=
        List.mem_filter.mpr ⟨hd, hready⟩
      rw [List.isEmpty_iff.mp hrd] at hdmem
      cases hdmem
    · rw [if_neg hrd]
      have hcready : readyTable rem c = false := by
        cases hcr : readyTable rem c
        · rfl
        · exfalso
          unfold readyTable at hcr
          have hall := List.all_eq_true.mp hcr fk hfk
          rw [Bool.or_eq_true] at hall
          rcases hall with h1 | h2
          · exact hpc (hfkp ▸ beq_iff_eq.mp h1)
          · have hq := List.all_eq_true.mp h2 p hp
            rw [bne_iff_ne] at hq
            exact hq hfkp.symm
      have hcrem : c ∈ rem.filter (fun d => !readyTable rem d) :=
        List.mem_filter.mpr ⟨hc, by simp [hcready]⟩
      by_cases hpready : readyTable rem p = true
      · have hprd : p ∈ rem.filter (readyTable rem) :=
          List.mem_filter.mpr ⟨hp, hpready⟩
        have h1 : [p].Sublist (rem.filter (readyTable rem)) :=
          List.singleton_sublist.mpr hprd
        have h2 : [c].Sublist
            (topoRounds n (rem.filter (fun d => !readyTable rem d))) :=
          List.singleton_sublist.mpr
            (((topoRounds_perm n _).mem_iff).mpr hcrem)
        exact h1.append h2
      · have hprem : p ∈ rem.filter (fun d => !readyTable rem d) :=
          List.mem_filter.mpr ⟨hp, by simp [hpready]⟩
        have hlenp : (rem.filter (readyTable rem)).length +
            (rem.filter (fun d => !readyTable rem d)).length = rem.length := by
          have := (List.filter_append_perm (readyTable rem) rem).length_eq
          simpa [List.length_append] using this
        have hrdpos : 0 < (rem.filter (readyTable rem)).length := by
          apply List.length_pos.mpr
          intro hnil
          exact hrd (by simp [hnil])
        have hlen' : (rem.filter (fun d => !readyTable rem d)).length ≤ n := by
          omega
        have hranked' : ∀ c' ∈ rem.filter (fun d => !readyTable rem d),
            ∀ p' ∈ rem.filter (fun d => !readyTable rem d),
            refsTable c' p' → rank p'.name < rank c'.name :=
          fun c' hc' p' hp' h =>
            hranked c' (List.mem_of_mem_filter hc') p'
              (List.mem_of_mem_filter hp') h
        have hrec := ih _ hlen' hranked' p c hprem hcrem ⟨hpc, fk, hfk, hfkp⟩
        exact hrec.trans (List.sublist_append_right _ _)

theorem reorder_parent_before_child (ds : List DesiredTable)
    (p c : DesiredTable) (rank : String → Nat)
    (hrank : FkRanked ds rank) (hp : p ∈ ds) (hc : c ∈ ds)
    (hrefs : refsTable c p) :
    [p, c].Sublist (reorderModels ds) :=
  topo_before rank ds.length ds le_rfl hrank p c hp hc hrefs

/-- C6: For a schema in which `c` references `p` via a foreign key (and the
foreign-key graph is acyclic, witnessed by a ranking), the creation plan
places `p`'s CreateTable strictly before `c`'s CreateTable and before `c`'s
foreign-key addition, and `DropTable` drops `c` strictly before `p`. -/
theorem fk_create_drop_ordering (ds : List DesiredTable)
    (p c : DesiredTable) (fk : ForeignKey) (rank : String → Nat)
    (hrank : FkRanked ds rank) (hp : p ∈ ds) (hc : c ∈ ds)
    (hfk : fk ∈ c.foreignKeys) (hfkp : fk.parentTable = p.name)
    (hne : p.name ≠ c.name) :
    [MigrationAction.createTable p.name,
      MigrationAction.createTable c.name].Sublist (createPlan ds) ∧
    [MigrationAction.createTable p.name,
      MigrationAction.addForeignKey c.name fk.name].Sublist (createPlan ds) ∧
    [MigrationAction.dropTable c.name,
      MigrationAction.dropTable p.name].Sublist (dropTableActions ds) := by
  have hrefs : refsTable c p := ⟨hne, fk, hfk, hfkp⟩
  have hsub : [p, c].Sublist (reorderModels ds) :=
    reorder_parent_before_child ds p c rank hrank hp hc hrefs
  have hplan : createPlan ds = (reorderModels ds).flatMap newTableActions :=
    rfl
  have hfl : (newTableActions p ++ (newTableActions c ++ [])).Sublist
      ((reorderModels ds).flatMap newTableActions) :=
    sublist_flatMap_mono newTableActions hsub
  rw [List.append_nil] at hfl
  have hcp : MigrationAction.createTable p.name ∈ newTableActions p := by
    simp [newTableActions]
  have hcc : MigrationAction.createTable c.name ∈ newTableActions c := by
    simp [newTableActions]
  have hfkc : MigrationAction.addForeignKey c.name fk.name ∈
      newTableActions c := by
    have hm : MigrationAction.addForeignKey c.name fk.name ∈
        c.foreignKeys.map
          (fun fk' => MigrationAction.addForeignKey c.name fk'.name) :=
      List.mem_map_of_mem _ hfk
    simp only [newTableActions, List.mem_append]
    exact Or.inl (Or.inr hm)
  refine ⟨?_, ?_, ?_⟩
  · rw [hplan]
    exact ((List.singleton_sublist.mpr hcp).append
      (List.singleton_sublist.mpr hcc)).trans hfl
  · rw [hplan]
    exact ((List.singleton_sublist.mpr hcp).append
      (List.singleton_sublist.mpr hfkc)).trans hfl
  · have hrev : [c, p].Sublist (reorderModels ds).reverse := by
      have := List.reverse_sublist.mpr hsub
      simpa using this
    exact List.Sublist.map (fun d => MigrationAction.dropTable d.name) hrev

theorem fk_create_drop_ordering_witness :
    (FkRanked [albumsTable, singersTable]
        (fun n => if n == "singers" then 0 else 1) ∧
      singersTable ∈ [albumsTable, singersTable] ∧
      albumsTable ∈ [albumsTable, singersTable] ∧
      ForeignKey.mk "fk_albums_singer" "singers" ∈ albumsTable.foreignKeys ∧
      (ForeignKey.mk "fk_albums_singer" "singers").parentTable =
        singersTable.name ∧
      singersTable.name ≠ albumsTable.name) ∧
    ([MigrationAction.createTable "singers",
       MigrationAction.createTable "albums"].Sublist
        (createPlan [albumsTable, singersTable]) ∧
     [MigrationAction.createTable "singers",
       MigrationAction.addForeignKey "albums" "fk_albums_singer"].Sublist
        (createPlan [albumsTable, singersTable]) ∧
     [MigrationAction.dropTable "albums",
       MigrationAction.dropTable "singers"].Sublist
        (dropTableActions [albumsTable, singersTable])) :=
  ⟨⟨by unfold FkRanked refsTable; decide, by decide, by decide, by decide,
     rfl, by decide⟩,
   fk_create_drop_ordering [albumsTable, singersTable] singersTable
     albumsTable (ForeignKey.mk "fk_albums_singer" "singers")
     (fun n => if n == "singers" then 0 else 1)
     (by unfold FkRanked refsTable; decide) (by decide) (by decide)
     (by decide) rfl (by decide)⟩

set_option maxRecDepth 4096 in
/-- C9, counterexample: the `albums` create-table statement rendered by the
engine (pinned verbatim by `TestMigrate`, `postgresql/spanner.go` line 379)
creates table `albums` with a foreign key referencing parent `singers`, yet
names it `fk_albums_singer` — not `fk_<parent>_<child>`, which would be
`fk_singers_albums` and occurs in none of the rendered statements. -/
theorem fk_naming_counterexample :
    namesAfter "CREATE TABLE \"" '"'
      (testMigrateStatements.get ⟨2, by decide⟩) = ["albums"] ∧
    namesAfter "REFERENCES \"" '"'
      (testMigrateStatements.get ⟨2, by decide⟩) = ["singers"] ∧
    namesAfter "CONSTRAINT \"" '"'
      (testMigrateStatements.get ⟨2, by decide⟩) = ["fk_albums_singer"] ∧
    "fk_albums_singer" ≠ "fk_" ++ "singers" ++ "_" ++ "albums" ∧
    testMigrateStatements.all
      (fun s => !(hasSub "fk_singers_albums".data s.data)) = true :=
  ⟨rfl, rfl, rfl, by decide, by decide⟩

set_option maxRecDepth 8192 in
/-- C9, amended: every rendered soft-delete index is named
`idx_<table>_deleted_at` and the backing sequence of table `T` is named
`<T>_seq`, as claimed; a foreign key, however, is named
`fk_<T>_<assoc>` where `T` is the table of the model *declaring* the
association and `assoc` the snake-cased association field — which equals
`fk_<parent>_<children>` when the parent declares the has-many side
(`fk_singers_albums`), but `fk_<child>_<parentField>` when only the child
declares the reference (`fk_albums_singer`). -/
theorem ddl_naming_conventions :
    (allNamesAfter "CONSTRAINT \"" '"' testMigrateStatements =
      testMigrateAssociations.map gormFkName) ∧
    (allNamesAfter "CONSTRAINT `" '`' emulatorDryRunStatements =
      emulatorAssociations.map gormFkName) ∧
    (allNamesAfter "CREATE SEQUENCE IF NOT EXISTS " ' '
        emulatorDryRunStatements =
      ["singers", "albums", "tracks", "venues", "concerts"].map
        (fun t => t ++ "_seq")) ∧
    ((allNamesAfter "CREATE TABLE `" '`' emulatorDryRunStatements).map
        (fun t => t ++ "_seq") =
      allNamesAfter "GET_NEXT_SEQUENCE_VALUE(Sequence " ')'
        emulatorDryRunStatements) ∧
    (((allNamesAfter "CREATE INDEX IF NOT EXISTS \"" '"'
          testMigrateStatements).zip
        (allNamesAfter "ON \"" '"' testMigrateStatements)).all
      (fun pr => !(hasSub "_deleted_at".data pr.1.data) ||
        pr.1 == "idx_" ++ pr.2 ++ "_deleted_at") = true) ∧
    (((allNamesAfter "CREATE INDEX `" '`' emulatorDryRunStatements).zip
        (allNamesAfter "ON `" '`' emulatorDryRunStatements)).all
      (fun pr => !(hasSub "_deleted_at".data pr.1.data) ||
        pr.1 == "idx_" ++ pr.2 ++ "_deleted_at") = true) :=
  ⟨rfl, rfl, rfl, rfl, by decide, by decide⟩

end SpannerGorm
